import Mathlib

/-
  Verification development for the request-authentication middleware of
  torus-metadata (src/middleware/index.ts).

  The middleware manipulates JSON request bodies, so the embedding models
  JSON values as a mutual inductive family (values / arrays / object field
  lists) and each Express middleware as a function from a request body to a
  verdict: either `next` (the request is passed on, optionally with the
  res.locals.noValidSig flag set) or a JSON error response with an HTTP
  status, or an uncaught exception escaping the handler (`crash`).

  External cryptographic collaborators (the elliptic secp256k1 verifier and
  the keccak256 hash) are kept abstract as parameters, since only the control
  flow around them is the subject of the claims.  Purely syntactic
  collaborators that the control flow depends on (base64 and hex codecs,
  JavaScript parseInt and string coercion, JSON canonical serialization) are
  embedded concretely.
-/

mutual
/-- A JSON value as produced by the Express body parser.  JavaScript
`undefined` is modelled by `Option.none` at use sites, never as a `JVal`. -/
inductive JVal where
  | null : JVal
  | bool (b : Bool) : JVal
  | num (n : Int) : JVal
  | str (s : String) : JVal
  | arr (xs : JArr) : JVal
  | obj (fs : JObj) : JVal
  deriving DecidableEq
/-- A JSON array (spine of values). -/
inductive JArr where
  | nil : JArr
  | cons (hd : JVal) (tl : JArr) : JArr
  deriving DecidableEq
/-- A JSON object: an insertion-ordered list of key/value fields. -/
inductive JObj where
  | nil : JObj
  | cons (key : String) (val : JVal) (tl : JObj) : JObj
  deriving DecidableEq
end

/-- Build an object field list from a `List` of pairs. -/
def JObj.ofList : List (String × JVal) → JObj
  | [] => .nil
  | (k, v) :: rest => .cons k v (JObj.ofList rest)

/-- View an object field list as a `List` of pairs. -/
def JObj.toList : JObj → List (String × JVal)
  | .nil => []
  | .cons k v r => (k, v) :: JObj.toList r

/-- Build a JSON array from a `List` of values. -/
def JArr.ofList : List JVal → JArr
  | [] => .nil
  | v :: rest => .cons v (JArr.ofList rest)

/-- View a JSON array as a `List` of values. -/
def JArr.toList : JArr → List JVal
  | .nil => []
  | .cons v r => v :: JArr.toList r

/-- First field with the given key, as JavaScript property lookup. -/
def JObj.find? : JObj → String → Option JVal
  | .nil, _ => none
  | .cons k v r, key => if k == key then some v else JObj.find? r key

/-- Convenient constructor for object literals. -/
def jobj (l : List (String × JVal)) : JVal := .obj (JObj.ofList l)

/-- Convenient constructor for array literals. -/
def jarr (l : List JVal) : JVal := .arr (JArr.ofList l)

/-- JavaScript property access `v[k]`: `none` models `undefined`.  Property
access on non-objects (and numeric-index access on arrays) plays no role in
the middleware, so it is modelled as `undefined`. -/
def getField (v : JVal) (k : String) : Option JVal :=
  match v with
  | .obj fs => fs.find? k
  | _ => none

/-- The JavaScript `in` operator on a request body. -/
def hasKey (v : JVal) (k : String) : Bool := (getField v k).isSome

/-- Modelled from the spec: `validateInput` lives in src/validations, which is
not part of the sources; per the Structural Validator contract each required
field must exist in the payload and be non-empty (a string must be non-empty,
any other present value must not be null). -/
def fieldOk (payload : JVal) (f : String) : Bool :=
  match getField payload f with
  | none => false
  | some .null => false
  | some (.str s) => !(s == "")
  | some _ => true

/-- Modelled from the spec: `validateInput payload items` returns the error
mapping (field name to message, one entry per failing required field, checked
in order without fail-fast) together with the `isValid` bit, which is true
exactly when the error mapping is empty. -/
def validateInput (payload : JVal) (items : List String) : List (String × String) × Bool :=
  let errors := items.filterMap fun f =>
    if fieldOk payload f then none else some (f, f ++ " is required")
  (errors, errors.isEmpty)

/-- Outcome of one middleware invocation.  `next flag` models calling
`next()` with `res.locals.noValidSig` equal to `flag`; `reject status error
index` models `res.status(status).json(...)` where `index` records the `index`
annotation placed on the error object, if any; `crash` models an exception
escaping the handler uncaught. -/
inductive MwOut where
  | next (noValidSig : Bool)
  | reject (status : Nat) (error : List (String × String)) (index : Option Nat)
  | crash
  deriving DecidableEq

/-- Modelled from the spec: `getError` (src/utils, not in the sources)
normalizes an internal exception to a generic message without leaking the
original error. -/
def getErrorMsg : List (String × String) := [("message", "Internal error")]

/-- Sixteen-or-less value of a hexadecimal digit character, if any. -/
def hexDigit? (c : Char) : Option Nat :=
  let n := c.toNat
  if 48 ≤ n ∧ n ≤ 57 then some (n - 48)
  else if 97 ≤ n ∧ n ≤ 102 then some (n - 87)
  else if 65 ≤ n ∧ n ≤ 70 then some (n - 55)
  else none

/-- JavaScript whitespace skipped by `parseInt`. -/
def jsWhitespace (c : Char) : Bool :=
  c == ' ' || c == '\t' || c == '\n' || c == '\r' || c == '\x0b' || c == '\x0c'

/-- Longest leading run of hexadecimal digits; `none` when there is none,
matching `parseInt` returning NaN. -/
def hexDigitsVal (cs : List Char) : Option Nat :=
  match cs.takeWhile (fun c => (hexDigit? c).isSome) with
  | [] => none
  | ds => some (ds.foldl (fun acc c => 16 * acc + (hexDigit? c).getD 0) 0)

/-- Strip a leading 0x or 0X marker, as `parseInt` does for radix 16. -/
def strip0x : List Char → List Char
  | '0' :: c :: rest => if c == 'x' || c == 'X' then rest else '0' :: c :: rest
  | cs => cs

/-- JavaScript `parseInt(s, 16)`: skip whitespace, optional sign, optional 0x
marker, then the longest hexadecimal digit run; `none` models NaN. -/
def jsParseInt16 (s : String) : Option Int :=
  match s.data.dropWhile jsWhitespace with
  | '-' :: rest => (hexDigitsVal (strip0x rest)).map fun n => -(n : Int)
  | '+' :: rest => (hexDigitsVal (strip0x rest)).map fun n => (n : Int)
  | cs => (hexDigitsVal (strip0x cs)).map fun n => (n : Int)

mutual
/-- JavaScript string coercion `String(v)` of a JSON value. -/
def jsToString : JVal → String
  | .null => "null"
  | .bool true => "true"
  | .bool false => "false"
  | .num n => toString n
  | .str s => s
  | .arr xs => jsJoinArr xs
  | .obj _ => "[object Object]"
/-- JavaScript `Array.prototype.toString`: comma-join, with null elements rendered
as the empty string. -/
def jsJoinArr : JArr → String
  | .nil => ""
  | .cons .null .nil => ""
  | .cons v .nil => jsToString v
  | .cons .null r => "," ++ jsJoinArr r
  | .cons v r => jsToString v ++ "," ++ jsJoinArr r
end

/-- JavaScript `parseInt(v, 16)` on a possibly-undefined JavaScript value: an absent
value coerces to the string undefined, which has no hexadecimal prefix, so it
also yields NaN. -/
def jsParseIntOpt (o : Option JVal) : Option Int :=
  match o with
  | some v => jsParseInt16 (jsToString v)
  | none => none

/-- The replay-guard condition `now - timeParsed > 60` of the source, on the
result of a parse: when the parse yielded NaN every comparison is false in
JavaScript, so the guard does not fire. -/
def staleAt (now : Int) (t : Option Int) : Bool :=
  match t with
  | some v => decide (now - v > 60)
  | none => false

/-- The staleness rejection message of the source. -/
def staleMsg : String := "Message has been signed more than 60s ago"

/-- Base64 value of one alphabet character, if valid. -/
def b64Val? (c : Char) : Option Nat :=
  let n := c.toNat
  if 65 ≤ n ∧ n ≤ 90 then some (n - 65)
  else if 97 ≤ n ∧ n ≤ 122 then some (n - 71)
  else if 48 ≤ n ∧ n ≤ 57 then some (n + 4)
  else if c == '+' then some 62
  else if c == '/' then some 63
  else none

/-- Collect base64 sextets, stopping at padding and skipping other
non-alphabet characters, as the Node base64 decoder does. -/
def b64Sextets : List Char → List Nat
  | [] => []
  | c :: rest =>
    if c == '=' then []
    else
      match b64Val? c with
      | some v => v :: b64Sextets rest
      | none => b64Sextets rest

/-- Reassemble bytes from 6-bit groups; a trailing partial group contributes
its complete bytes only. -/
def b64Bytes : List Nat → List Nat
  | a :: b :: c :: d :: rest =>
    (a * 4 + b / 16) :: ((b % 16) * 16 + c / 4) :: ((c % 4) * 64 + d) :: b64Bytes rest
  | [a, b] => [a * 4 + b / 16]
  | [a, b, c] => [a * 4 + b / 16, (b % 16) * 16 + c / 4]
  | _ => []

/-- Node `Buffer.from(s, base64)` as a byte list. -/
def base64Decode (s : String) : List Nat := b64Bytes (b64Sextets s.data)

/-- Lowercase hexadecimal digit character of a value below 16. -/
def hexChar (n : Nat) : Char :=
  if n < 10 then Char.ofNat (48 + n) else Char.ofNat (87 + n)

/-- Node `buffer.toString(hex)`: two lowercase digits per byte. -/
def bytesToHex (bs : List Nat) : String :=
  (bs.foldr (fun b acc => hexChar (b / 16) :: hexChar (b % 16) :: acc) []).asString

/-- JavaScript `String.prototype.substring(a, b)` for `a ≤ b`, clamping to the length. -/
def jsSubstring (s : String) (a b : Nat) : String :=
  ((s.data.drop a).take (b - a)).asString

/-- Node `Buffer.from(s, hex)`: consume hexadecimal digit pairs, stopping at the
first invalid pair and dropping a trailing odd digit, as Node does. -/
def hexPairs : List Char → List Nat
  | c1 :: c2 :: rest =>
    match hexDigit? c1, hexDigit? c2 with
    | some h, some l => (16 * h + l) :: hexPairs rest
    | _, _ => []
  | _ => []

/-- Hex string to byte list. -/
def hexToBytes (s : String) : List Nat := hexPairs s.data

/-- Byte-wise comparison of key strings (code points, ascending); the fixed
total order by which the canonicalizer sorts object keys. -/
def strLeB : List Char → List Char → Bool
  | [], _ => true
  | _ :: _, [] => false
  | c :: cs, d :: ds =>
    if c.toNat < d.toNat then true
    else if d.toNat < c.toNat then false
    else strLeB cs ds

/-- Order on object fields: compare keys only. -/
def keyLE (a b : String × JVal) : Prop := strLeB a.1.data b.1.data = true

instance : DecidableRel keyLE := fun _ _ => instDecidableEqBool _ _

/-- Ordered insertion of a field into an already sorted field list. -/
def insertObj (k : String) (v : JVal) : JObj → JObj
  | .nil => .cons k v .nil
  | .cons k2 v2 rest =>
    if strLeB k.data k2.data then .cons k v (.cons k2 v2 rest)
    else .cons k2 v2 (insertObj k v rest)

/-- Insertion sort of an object field list by key. -/
def sortObj : JObj → JObj
  | .nil => .nil
  | .cons k v rest => insertObj k v (sortObj rest)

mutual
/-- Modelled from the spec: recursive canonical normal form used by the
canonicalizer (the json-stable-stringify dependency, not in the sources):
object keys are sorted by the fixed total order at every depth, array order
and all contents are preserved. -/
def normalizeJ : JVal → JVal
  | .arr xs => .arr (normalizeA xs)
  | .obj fs => .obj (sortObj (normalizeO fs))
  | v => v
/-- Normalize every element of an array. -/
def normalizeA : JArr → JArr
  | .nil => .nil
  | .cons v r => .cons (normalizeJ v) (normalizeA r)
/-- Normalize every field value of an object. -/
def normalizeO : JObj → JObj
  | .nil => .nil
  | .cons k v r => .cons k (normalizeJ v) (normalizeO r)
end

/-- JSON string escaping (quotes and backslashes; sufficient for an
unambiguous rendering). -/
def jsonEscape (s : String) : String :=
  (s.data.foldr
    (fun c acc =>
      if c == '"' then '\\' :: '"' :: acc
      else if c == '\\' then '\\' :: '\\' :: acc
      else c :: acc)
    []).asString

mutual
/-- Render a (normalized) JSON value to its serialized text. -/
def renderJson : JVal → String
  | .null => "null"
  | .bool true => "true"
  | .bool false => "false"
  | .num n => toString n
  | .str s => "\"" ++ jsonEscape s ++ "\""
  | .arr xs => "[" ++ renderA xs ++ "]"
  | .obj fs => "\x7b" ++ renderO fs ++ "\x7d"
/-- Comma-join of rendered array elements. -/
def renderA : JArr → String
  | .nil => ""
  | .cons v .nil => renderJson v
  | .cons v r => renderJson v ++ "," ++ renderA r
/-- Comma-join of rendered object fields. -/
def renderO : JObj → String
  | .nil => ""
  | .cons k v .nil => "\"" ++ jsonEscape k ++ "\":" ++ renderJson v
  | .cons k v r => "\"" ++ jsonEscape k ++ "\":" ++ renderJson v ++ "," ++ renderO r
end

/-- Modelled from the spec: the canonicalizer `stringify` (the
json-stable-stringify dependency, not in the sources) deterministically
serializes a value with object keys sorted by a fixed total order at every
depth, so that two deeply equal payloads serialize identically. -/
def stringify (v : JVal) : String := renderJson (normalizeJ v)

/-- Abstract model of the cryptographic collaborators of the middleware: the
keccak256 hash, the success of reconstructing a public-key point from the two
supplied coordinates (elliptic keyFromPublic, which throws on failure), and
the elliptic verify call on the hashed message, the two signature halves and
the two coordinates. -/
structure CryptoModel where
  keccak : String → String
  keyOk : Option JVal → Option JVal → Bool
  verify : String → List Nat → List Nat → Option JVal → Option JVal → Bool

/-- Source `validationMiddleware(items)`: single-item structural validation of the
request body against the required-field list. -/
def validationMiddleware (items : List String) (body : JVal) : MwOut :=
  let v := validateInput body items
  if !v.2 then .reject 400 v.1 none
  else .next false

/-- Body of the `for` loop of `validationLoopMiddleware`, carrying the current
index: each item is validated in order; the first invalid item is reported
with status 400 and its index attached to the error object, and later items
are not inspected. -/
def validationLoopBody (items : List String) : List JVal → Nat → MwOut
  | [], _ => .next false
  | p :: rest, i =>
    let v := validateInput p items
    if !v.2 then .reject 400 v.1 (some i)
    else validationLoopBody items rest (i + 1)

/-- Source `validationLoopMiddleware(items, key)`: the addressed field must be an
array (checked with Array.isArray, rejecting with 400 otherwise), then every
element is validated in index order. -/
def validationLoopMiddleware (items : List String) (key : String) (body : JVal) : MwOut :=
  match getField body key with
  | some (.arr xs) => validationLoopBody items xs.toList 0
  | _ => .reject 400 [("message", key ++ " must be an array")] none

/-- Source `validateMetadataInput`: structural validation of set_data against
required fields data and timestamp, then the replay guard on the
hexadecimal timestamp. -/
def validateMetadataInput (now : Int) (body : JVal) : MwOut :=
  let setData := (getField body "set_data").getD (.obj .nil)
  let v := validateInput setData ["data", "timestamp"]
  if !v.2 then .reject 400 v.1 none
  else if staleAt now (jsParseIntOpt (getField setData "timestamp")) then
    .reject 403 (v.1 ++ [("timestamp", staleMsg)]) none
  else .next false

/-- Body of the `for` loop of `validateMetadataLoopInput`.  A structural
failure is reported with 400 and the index attached; a staleness failure is
reported with 403 and, exactly as in the source, no index is attached. -/
def metadataLoopBody (now : Int) : List JVal → Nat → MwOut
  | [], _ => .next false
  | p :: rest, i =>
    let setData := (getField p "set_data").getD (.obj .nil)
    let v := validateInput setData ["data", "timestamp"]
    if !v.2 then .reject 400 v.1 (some i)
    else if staleAt now (jsParseIntOpt (getField setData "timestamp")) then
      .reject 403 (v.1 ++ [("timestamp", staleMsg)]) none
    else metadataLoopBody now rest (i + 1)

/-- Source `validateMetadataLoopInput(key)`: the Array.isArray guard is commented
out in the source and there is no try/catch around the loop head, so calling
.entries() on a non-array value throws an uncaught TypeError, modelled by
`crash`. -/
def validateMetadataLoopInput (now : Int) (key : String) (body : JVal) : MwOut :=
  match getField body key with
  | some (.arr xs) => metadataLoopBody now xs.toList 0
  | _ => .crash

/-- Source `validateSignature`: reconstruct the public key (a failure throws and is
caught as a 500), base64-decode the signature to hex text, split it into the
two 32-byte halves by substring positions 0-64 and 64-128 with no length
check, hash the canonical serialization of set_data and verify.  A missing or
non-string signature or a missing set_data makes the Buffer/hash calls throw,
caught as 500. -/
def validateSignature (C : CryptoModel) (body : JVal) : MwOut :=
  let pubKeyX := getField body "pub_key_X"
  let pubKeyY := getField body "pub_key_Y"
  if !C.keyOk pubKeyX pubKeyY then .reject 500 getErrorMsg none
  else
    match getField body "signature", getField body "set_data" with
    | some (.str sg), some setData =>
      let decodedSignature := bytesToHex (base64Decode sg)
      let r := hexToBytes (jsSubstring decodedSignature 0 64)
      let s := hexToBytes (jsSubstring decodedSignature 64 128)
      if C.verify (C.keccak (stringify setData)) r s pubKeyX pubKeyY then .next false
      else .reject 403 [("signature", "Invalid signature")] none
    | _, _ => .reject 500 getErrorMsg none

/-- Body of the `for` loop of `validateLoopSignature`: per item, the same
verification as `validateSignature`; a failed verification is reported with
403 and the index, a thrown error is caught, annotated with the index and
reported with 500. -/
def signatureLoopBody (C : CryptoModel) : List JVal → Nat → MwOut
  | [], _ => .next false
  | p :: rest, i =>
    let pubKeyX := getField p "pub_key_X"
    let pubKeyY := getField p "pub_key_Y"
    if !C.keyOk pubKeyX pubKeyY then .reject 500 getErrorMsg (some i)
    else
      match getField p "signature", getField p "set_data" with
      | some (.str sg), some setData =>
        let decodedSignature := bytesToHex (base64Decode sg)
        let r := hexToBytes (jsSubstring decodedSignature 0 64)
        let s := hexToBytes (jsSubstring decodedSignature 64 128)
        if C.verify (C.keccak (stringify setData)) r s pubKeyX pubKeyY then
          signatureLoopBody C rest (i + 1)
        else .reject 403 [("signature", "Invalid signature")] (some i)
      | _, _ => .reject 500 getErrorMsg (some i)

/-- Source `validateLoopSignature(key)`: as in `validateMetadataLoopInput`, the
Array.isArray guard is commented out and the try/catch sits inside the loop,
so .entries() on a non-array value throws uncaught, modelled by `crash`. -/
def validateLoopSignature (C : CryptoModel) (key : String) (body : JVal) : MwOut :=
  match getField body key with
  | some (.arr xs) => signatureLoopBody C xs.toList 0
  | _ => .crash

/-- Abstract model of the cryptographic collaborators of `validateLockData`,
whose call shape differs from the other signature call sites: the raw
signature value and the hex public-key text are passed to verify directly. -/
structure LockCryptoModel where
  keccak : String → String
  verify : String → Option JVal → String → Bool

/-- JavaScript numeric coercion of a JSON value as used by the arithmetic
comparison in `validateLockData` (`none` models NaN; array and object
coercion is simplified to NaN, which only widens the set of passing values
exactly as NaN does). -/
def jsToNumber (v : JVal) : Option Int :=
  match v with
  | .num n => some n
  | .null => some 0
  | .bool true => some 1
  | .bool false => some 0
  | .str s => jsParseInt16 s
  | _ => none

/-- Numeric coercion of a possibly-undefined value; undefined coerces to
NaN. -/
def jsToNumberOpt (o : Option JVal) : Option Int := o.bind jsToNumber

/-- Source `validateLockData`: hash and verify the signature over the canonical
serialization of `data` FIRST, then apply the replay guard to the numeric
`timeStamp` field of `data`.  A missing `data` makes the hash call throw and
a non-string `key` makes Buffer.from throw; both are caught as 500. -/
def validateLockData (L : LockCryptoModel) (now : Int) (body : JVal) : MwOut :=
  match getField body "data" with
  | none => .reject 500 getErrorMsg none
  | some data =>
    match getField body "key" with
    | some (.str pubKey) =>
      if L.verify (L.keccak (stringify data)) (getField body "signature") pubKey then
        if staleAt now (jsToNumberOpt (getField data "timeStamp")) then
          .reject 403 [("error", staleMsg)] none
        else .next false
      else .reject 403 [("error", "Invalid Signature")] none
    | _ => .reject 500 getErrorMsg none

/-- Source `validV2InputWithSig(body)`: true exactly when all four of set_data,
pub_key_X, pub_key_Y and signature are present in the body. -/
def validV2InputWithSig (body : JVal) : Bool :=
  hasKey body "set_data" && hasKey body "pub_key_X" &&
    hasKey body "pub_key_Y" && hasKey body "signature"

/-- A single quote character, for building the v2 data error message. -/
def quoteCh : String := (Char.ofNat 39).toString

/-- The v2 rejection message for a data command outside the allowed set. -/
def dataMsg : String :=
  "Should be equal to " ++ quoteCh ++ "getOrSetNonce" ++ quoteCh ++ " or " ++ quoteCh ++ "getNonce" ++ quoteCh

/-- The membership test of the source,
`["getOrSetNonce", "getNonce"].includes(data)`: strict equality, so only the
two exact strings pass. -/
def jsDataAllowed (o : Option JVal) : Bool :=
  match o with
  | some (.str s) => s == "getOrSetNonce" || s == "getNonce"
  | _ => false

/-- Source `validateGetOrSetNonceSetInput`: when any of the four v2 fields is
absent, set res.locals.noValidSig and pass through; otherwise validate the
set_data shape, then require the data command to be getOrSetNonce or
getNonce, then apply the replay guard. -/
def validateGetOrSetNonceSetInput (now : Int) (body : JVal) : MwOut :=
  if !validV2InputWithSig body then .next true
  else
    let setData := (getField body "set_data").getD (.obj .nil)
    let v := validateInput setData ["data", "timestamp"]
    if !v.2 then .reject 400 v.1 none
    else if !jsDataAllowed (getField setData "data") then
      .reject 403 (v.1 ++ [("data", dataMsg)]) none
    else if staleAt now (jsParseIntOpt (getField setData "timestamp")) then
      .reject 403 (v.1 ++ [("timestamp", staleMsg)]) none
    else .next false

/-- Source `validateGetOrSetNonceSignature`: when any of the four v2 fields is
absent, set res.locals.noValidSig and pass through; otherwise verify exactly
as `validateSignature`. -/
def validateGetOrSetNonceSignature (C : CryptoModel) (body : JVal) : MwOut :=
  if !validV2InputWithSig body then .next true
  else
    let pubKeyX := getField body "pub_key_X"
    let pubKeyY := getField body "pub_key_Y"
    if !C.keyOk pubKeyX pubKeyY then .reject 500 getErrorMsg none
    else
      match getField body "signature", getField body "set_data" with
      | some (.str sg), some setData =>
        let decodedSignature := bytesToHex (base64Decode sg)
        let r := hexToBytes (jsSubstring decodedSignature 0 64)
        let s := hexToBytes (jsSubstring decodedSignature 64 128)
        if C.verify (C.keccak (stringify setData)) r s pubKeyX pubKeyY then .next false
        else .reject 403 [("signature", "Invalid signature")] none
      | _, _ => .reject 500 getErrorMsg none


/-! ### Helper lemmas -/

/-- An empty list is nil. -/
theorem list_isEmpty_eq_nil {α} {l : List α} (h : l.isEmpty = true) : l = [] := by
  cases l <;> simp_all

/-- When validation succeeds the error mapping is empty. -/
theorem validateInput_valid_errors (p : JVal) (items : List String)
    (h : (validateInput p items).2 = true) : (validateInput p items).1 = [] := by
  unfold validateInput at h ⊢
  exact list_isEmpty_eq_nil h

/-- Concrete crypto model whose verify always fails but whose key
reconstruction succeeds, used to instantiate abstract middleware behavior. -/
def rejectCrypto : CryptoModel :=
  ⟨fun _ => "", fun _ _ => true, fun _ _ _ _ _ => false⟩

/-- Concrete crypto model whose verify always succeeds. -/
def acceptCrypto : CryptoModel :=
  ⟨fun _ => "", fun _ _ => true, fun _ _ _ _ _ => true⟩

/-! ### C1 -/

/-- C1: in optional-signature (v2) mode, when any of the four fields
set_data, pub_key_X, pub_key_Y, signature is absent (validV2InputWithSig is
false), both validateGetOrSetNonceSetInput and validateGetOrSetNonceSignature
skip all verification, set the noValidSig flag and pass the request through,
producing no 400 or 403 response. -/
theorem v2_missing_field_passthrough (C : CryptoModel) (now : Int) (body : JVal)
    (h : validV2InputWithSig body = false) :
    validateGetOrSetNonceSetInput now body = .next true ∧
    validateGetOrSetNonceSignature C body = .next true := by
  constructor
  · unfold validateGetOrSetNonceSetInput
    rw [h]
    rfl
  · unfold validateGetOrSetNonceSignature
    rw [h]
    rfl

/-- Witness for C1: a body carrying only pub_key_X is missing the other three
fields and passes through both middlewares with the flag set. -/
theorem v2_missing_field_passthrough_inst :
    validV2InputWithSig (jobj [("pub_key_X", .str "aa")]) = false ∧
    validateGetOrSetNonceSetInput 0 (jobj [("pub_key_X", .str "aa")]) = .next true ∧
    validateGetOrSetNonceSignature rejectCrypto (jobj [("pub_key_X", .str "aa")]) = .next true :=
  ⟨by decide,
   (v2_missing_field_passthrough rejectCrypto 0 _ (by decide)).1,
   (v2_missing_field_passthrough rejectCrypto 0 _ (by decide)).2⟩

/-! ### C3 -/

/-- C3: whenever the base-16 parse of the timestamp yields an integer t, the
replay guard of validateMetadataInput, and likewise of
validateGetOrSetNonceSetInput past its data check, rejects with 403 and the
staleness message exactly when now - t > 60; in particular now - t = 60
passes, now - t = 61 fails, and any timestamp at or beyond now passes, there
being no upper bound on future timestamps. -/
theorem freshness_window_exact :
    (∀ (now : Int) (body setData ts : JVal) (t : Int),
      getField body "set_data" = some setData →
      (validateInput setData ["data", "timestamp"]).2 = true →
      getField setData "timestamp" = some ts →
      jsParseInt16 (jsToString ts) = some t →
      validateMetadataInput now body =
        (if now - t > 60 then .reject 403 [("timestamp", staleMsg)] none else .next false)) ∧
    (∀ (now : Int) (body setData ts : JVal) (t : Int),
      validV2InputWithSig body = true →
      getField body "set_data" = some setData →
      (validateInput setData ["data", "timestamp"]).2 = true →
      jsDataAllowed (getField setData "data") = true →
      getField setData "timestamp" = some ts →
      jsParseInt16 (jsToString ts) = some t →
      validateGetOrSetNonceSetInput now body =
        (if now - t > 60 then .reject 403 [("timestamp", staleMsg)] none else .next false)) := by
  constructor
  · intro now body setData ts t hsd hv hts hp
    have he := validateInput_valid_errors setData ["data", "timestamp"] hv
    unfold validateMetadataInput
    simp only [hsd, Option.getD_some, jsParseIntOpt, hts]
    by_cases h60 : now - t > 60 <;> simp [hv, he, hp, staleAt, h60]
  · intro now body setData ts t hall hsd hv hd hts hp
    have he := validateInput_valid_errors setData ["data", "timestamp"] hv
    unfold validateGetOrSetNonceSetInput
    simp only [hall, hsd, Option.getD_some, jsParseIntOpt, hts]
    by_cases h60 : now - t > 60 <;> simp [hv, he, hd, hp, staleAt, h60]

/-- A structurally valid set_data payload whose timestamp is 0x3e8 = 1000
seconds. -/
def freshSet : JVal := jobj [("data", .str "mnemonic"), ("timestamp", .str "3e8")]

/-- A body carrying `freshSet`. -/
def freshBody : JVal := jobj [("set_data", freshSet)]

/-- A v2 set_data payload with the allowed data command getNonce and
timestamp 0x3e8 = 1000 seconds. -/
def freshSetV2 : JVal := jobj [("data", .str "getNonce"), ("timestamp", .str "3e8")]

/-- Payload `freshSetV2` wrapped with the three other v2 fields. -/
def freshBodyV2 : JVal :=
  jobj [("set_data", freshSetV2),
        ("pub_key_X", .str "aa"), ("pub_key_Y", .str "bb"), ("signature", .str "c2ln")]

/-- Witness for C3: at now = 1060 (difference exactly 60) the payload passes,
at now = 1061 (difference 61) it is rejected as stale, and at now = 0 (a
timestamp 1000 seconds in the future) it passes; the v2 variant agrees at the
boundary. -/
theorem freshness_window_exact_inst :
    validateMetadataInput 1060 freshBody = .next false ∧
    validateMetadataInput 1061 freshBody = .reject 403 [("timestamp", staleMsg)] none ∧
    validateMetadataInput 0 freshBody = .next false ∧
    validateGetOrSetNonceSetInput 1061 freshBodyV2 = .reject 403 [("timestamp", staleMsg)] none := by
  refine ⟨?_, ?_, ?_, ?_⟩
  · rw [freshness_window_exact.1 1060 freshBody freshSet (.str "3e8") 1000 (by decide)
      (by decide) (by decide) (by decide)]
    decide
  · rw [freshness_window_exact.1 1061 freshBody freshSet (.str "3e8") 1000 (by decide)
      (by decide) (by decide) (by decide)]
    decide
  · rw [freshness_window_exact.1 0 freshBody freshSet (.str "3e8") 1000 (by decide)
      (by decide) (by decide) (by decide)]
    decide
  · rw [freshness_window_exact.2 1061 freshBodyV2 freshSetV2 (.str "3e8") 1000 (by decide)
      (by decide) (by decide) (by decide) (by decide) (by decide)]
    decide

/-! ### C5 -/

/-- A structurally valid set_data whose timestamp has no base-16 parse. -/
def nanSet : JVal := jobj [("data", .str "mnemonic"), ("timestamp", .str "zzzz")]

/-- A body carrying `nanSet`. -/
def nanBody : JVal := jobj [("set_data", nanSet)]

/-- Counterexample to C5: the timestamp zzzz does not parse as base-16, yet
validateMetadataInput passes the request through with no error of any kind:
parse failure produces no structural error and the payload IS accepted as
fresh (parseInt yields NaN and the staleness comparison on NaN is false). -/
theorem unparseable_timestamp_accepted :
    jsParseInt16 "zzzz" = none ∧
    validateMetadataInput 1000 nanBody = .next false := by decide

/-- C5 as amended: for every timestamp whose base-16 parse fails, the replay
guard reports nothing at all: the staleness comparison against NaN is false,
so both validateMetadataInput and the loop body of validateMetadataLoopInput
accept the payload as fresh and move on. -/
theorem nan_timestamp_passes_guard :
    (∀ (now : Int) (body setData ts : JVal),
      getField body "set_data" = some setData →
      (validateInput setData ["data", "timestamp"]).2 = true →
      getField setData "timestamp" = some ts →
      jsParseInt16 (jsToString ts) = none →
      validateMetadataInput now body = .next false) ∧
    (∀ (now : Int) (p setData ts : JVal) (rest : List JVal) (i : Nat),
      getField p "set_data" = some setData →
      (validateInput setData ["data", "timestamp"]).2 = true →
      getField setData "timestamp" = some ts →
      jsParseInt16 (jsToString ts) = none →
      metadataLoopBody now (p :: rest) i = metadataLoopBody now rest (i + 1)) := by
  constructor
  · intro now body setData ts hsd hv hts hp
    unfold validateMetadataInput
    simp only [hsd, Option.getD_some, jsParseIntOpt, hts]
    simp [hv, hp, staleAt]
  · intro now p setData ts rest i hsd hv hts hp
    conv_lhs => rw [metadataLoopBody.eq_def]
    simp only [hsd, Option.getD_some, jsParseIntOpt, hts]
    simp [hv, hp, staleAt]

/-- Witness for C5 as amended: the loop body also steps over an item whose
timestamp is unparseable. -/
theorem nan_timestamp_passes_guard_inst :
    jsParseInt16 (jsToString (.str "zzzz")) = none ∧
    metadataLoopBody 1000 [nanBody] 0 = metadataLoopBody 1000 [] 1 :=
  ⟨by decide,
   nan_timestamp_passes_guard.2 1000 nanBody nanSet (.str "zzzz") [] 0 (by decide) (by decide)
     (by decide) (by decide)⟩

/-! ### C10 -/

/-- C10: with all four v2 fields present and a structurally valid set_data,
validateGetOrSetNonceSetInput rejects with 403 and the data message whenever
the data command is anything other than getOrSetNonce or getNonce, and it
does so for every value of now, i.e. before the freshness check can run. -/
theorem v2_data_value_rejected_before_freshness (now : Int) (body setData : JVal)
    (hall : validV2InputWithSig body = true)
    (hsd : getField body "set_data" = some setData)
    (hv : (validateInput setData ["data", "timestamp"]).2 = true)
    (hd : jsDataAllowed (getField setData "data") = false) :
    validateGetOrSetNonceSetInput now body = .reject 403 [("data", dataMsg)] none := by
  have he := validateInput_valid_errors setData ["data", "timestamp"] hv
  unfold validateGetOrSetNonceSetInput
  simp only [hall, hsd, Option.getD_some]
  simp [hv, he, hd]

/-- A v2 body whose data command is the disallowed string hello and whose
timestamp 0x0 is long stale. -/
def wrongDataSet : JVal := jobj [("data", .str "hello"), ("timestamp", .str "0")]

/-- Payload `wrongDataSet` wrapped with the three other v2 fields. -/
def wrongDataBody : JVal :=
  jobj [("set_data", wrongDataSet),
        ("pub_key_X", .str "aa"), ("pub_key_Y", .str "bb"), ("signature", .str "c2ln")]

/-- Witness for C10: even at now = 1000000, where the timestamp 0x0 is long
stale, the verdict is the 403 data rejection, not the staleness one. -/
theorem v2_data_value_rejected_before_freshness_inst :
    validV2InputWithSig wrongDataBody = true ∧
    jsDataAllowed (getField wrongDataSet "data") = false ∧
    validateGetOrSetNonceSetInput 1000000 wrongDataBody = .reject 403 [("data", dataMsg)] none :=
  ⟨by decide, by decide,
   v2_data_value_rejected_before_freshness 1000000 wrongDataBody wrongDataSet (by decide)
     (by decide) (by decide) (by decide)⟩

/-! ### C7 -/

/-- A v2 body with the disallowed data command hello and the fresh timestamp
0x3e8 = 1000. -/
def wrongDataFreshBody : JVal :=
  jobj [("set_data", jobj [("data", .str "hello"), ("timestamp", .str "3e8")]),
        ("pub_key_X", .str "aa"), ("pub_key_Y", .str "bb"), ("signature", .str "c2ln")]

/-- Counterexample to C7: a body with all four v2 fields present, a
structurally valid set_data with the data command hello and a fresh
timestamp (now = 1000, timestamp 0x3e8 = 1000).  Mandatory-mode
validateMetadataInput passes the request through, while optional-signature
validateGetOrSetNonceSetInput rejects it with 403 because of its extra data
command check, so the two verdicts differ. -/
theorem v2_data_check_diverges :
    validV2InputWithSig wrongDataFreshBody = true ∧
    validateMetadataInput 1000 wrongDataFreshBody = .next false ∧
    validateGetOrSetNonceSetInput 1000 wrongDataFreshBody
      = .reject 403 [("data", dataMsg)] none := by
  refine ⟨by decide, by decide, by decide⟩

/-- C7 as amended: with all four v2 fields present, validateGetOrSetNonceSetInput
produces the same verdict as mandatory-mode validateMetadataInput on every
body whose data command, when the set_data shape is valid, is getOrSetNonce
or getNonce; the sole divergence is the extra 403 data-command rejection of
the v2 middleware exhibited by the counterexample. -/
theorem v2_matches_v1_on_allowed_data (now : Int) (body setData : JVal)
    (hall : validV2InputWithSig body = true)
    (hsd : getField body "set_data" = some setData)
    (hdata : (validateInput setData ["data", "timestamp"]).2 = true →
      jsDataAllowed (getField setData "data") = true) :
    validateGetOrSetNonceSetInput now body = validateMetadataInput now body := by
  unfold validateGetOrSetNonceSetInput validateMetadataInput
  simp only [hall, hsd, Option.getD_some]
  by_cases hv : (validateInput setData ["data", "timestamp"]).2 = true
  · simp [hv, hdata hv]
  · simp [Bool.not_eq_true] at hv
    simp [hv]

/-- Witness for C7 as amended: on a v2 body with the allowed data command
getNonce, the two middlewares agree (here both reject the stale timestamp the
same way at now = 1061). -/
theorem v2_matches_v1_on_allowed_data_inst :
    validV2InputWithSig freshBodyV2 = true ∧
    jsDataAllowed (getField freshSetV2 "data") = true ∧
    validateGetOrSetNonceSetInput 1061 freshBodyV2 = validateMetadataInput 1061 freshBodyV2 :=
  ⟨by decide, by decide,
   v2_matches_v1_on_allowed_data 1061 freshBodyV2 freshSetV2 (by decide) (by decide)
     (fun _ => by decide)⟩

/-! ### C2 -/

/-- Round trip of the array view. -/
theorem arrToList_ofList (l : List JVal) : (JArr.ofList l).toList = l := by
  induction l with
  | nil => rfl
  | cons v r ih => simp [JArr.ofList, JArr.toList, ih]

/-- Whether one batch item passes both checks of the metadata loop body. -/
def metadataItemOk (now : Int) (p : JVal) : Bool :=
  (validateInput ((getField p "set_data").getD (.obj .nil)) ["data", "timestamp"]).2 &&
    !staleAt now (jsParseIntOpt (getField ((getField p "set_data").getD (.obj .nil)) "timestamp"))

/-- The rejection the metadata loop body produces for a failing item at
index i: 400 with the index attached for a structural failure, 403 WITHOUT
any index for a staleness failure (the source only sets errors.index in the
structural branch). -/
def metadataItemReject (_now : Int) (p : JVal) (i : Nat) : MwOut :=
  let setData := (getField p "set_data").getD (.obj .nil)
  let v := validateInput setData ["data", "timestamp"]
  if !v.2 then .reject 400 v.1 (some i)
  else .reject 403 (v.1 ++ [("timestamp", staleMsg)]) none

/-- Whether one batch item passes the signature loop body: the key
reconstructs, signature and set_data are present with a string signature, and
the verify call succeeds. -/
def signatureItemOk (C : CryptoModel) (p : JVal) : Bool :=
  if !C.keyOk (getField p "pub_key_X") (getField p "pub_key_Y") then false
  else
    match getField p "signature", getField p "set_data" with
    | some (.str sg), some setData =>
      C.verify (C.keccak (stringify setData))
        (hexToBytes (jsSubstring (bytesToHex (base64Decode sg)) 0 64))
        (hexToBytes (jsSubstring (bytesToHex (base64Decode sg)) 64 128))
        (getField p "pub_key_X") (getField p "pub_key_Y")
    | _, _ => false

/-- The rejection the signature loop body produces for a failing item at
index i: 500 with the index for a thrown error, 403 with the index for a
failed verification. -/
def signatureItemReject (C : CryptoModel) (p : JVal) (i : Nat) : MwOut :=
  if !C.keyOk (getField p "pub_key_X") (getField p "pub_key_Y") then
    .reject 500 getErrorMsg (some i)
  else
    match getField p "signature", getField p "set_data" with
    | some (.str _), some _ => .reject 403 [("signature", "Invalid signature")] (some i)
    | _, _ => .reject 500 getErrorMsg (some i)

/-- A valid item makes the validation loop step to the next index. -/
theorem validationLoopBody_ok (items : List String) (p : JVal) (rest : List JVal) (i : Nat)
    (h : (validateInput p items).2 = true) :
    validationLoopBody items (p :: rest) i = validationLoopBody items rest (i + 1) := by
  conv_lhs => rw [validationLoopBody.eq_def]
  simp [h]

/-- An invalid item stops the validation loop with 400 and its index. -/
theorem validationLoopBody_fail (items : List String) (p : JVal) (rest : List JVal) (i : Nat)
    (h : (validateInput p items).2 = false) :
    validationLoopBody items (p :: rest) i = .reject 400 (validateInput p items).1 (some i) := by
  conv_lhs => rw [validationLoopBody.eq_def]
  simp [h]

/-- The validation loop reports the first failing item at its position. -/
theorem validationLoopBody_first_fail (items : List String) (pre : List JVal) (x : JVal)
    (rest : List JVal) (hpre : ∀ p ∈ pre, (validateInput p items).2 = true)
    (hx : (validateInput x items).2 = false) :
    ∀ i, validationLoopBody items (pre ++ x :: rest) i
      = .reject 400 (validateInput x items).1 (some (i + pre.length)) := by
  induction pre with
  | nil => intro i; simpa using validationLoopBody_fail items x rest i hx
  | cons p pre ih =>
    intro i
    rw [List.cons_append, validationLoopBody_ok items p _ i (hpre p (by simp))]
    rw [ih (fun q hq => hpre q (by simp [hq])) (i + 1)]
    congr 2
    simp only [List.length_cons]
    omega

/-- An item passing both checks makes the metadata loop step on. -/
theorem metadataLoopBody_ok (now : Int) (p : JVal) (rest : List JVal) (i : Nat)
    (h : metadataItemOk now p = true) :
    metadataLoopBody now (p :: rest) i = metadataLoopBody now rest (i + 1) := by
  rw [metadataItemOk, Bool.and_eq_true, Bool.not_eq_true'] at h
  conv_lhs => rw [metadataLoopBody.eq_def]
  simp [h.1, h.2]

/-- A failing item stops the metadata loop with its rejection. -/
theorem metadataLoopBody_fail (now : Int) (p : JVal) (rest : List JVal) (i : Nat)
    (h : metadataItemOk now p = false) :
    metadataLoopBody now (p :: rest) i = metadataItemReject now p i := by
  rw [metadataItemOk, Bool.and_eq_false_iff] at h
  conv_lhs => rw [metadataLoopBody.eq_def]
  unfold metadataItemReject
  rcases h with h | h
  · simp [h]
  · rw [Bool.not_eq_false'] at h
    by_cases hv : (validateInput ((getField p "set_data").getD (.obj .nil))
        ["data", "timestamp"]).2 = true
    · simp [hv, h]
    · rw [Bool.not_eq_true] at hv
      simp [hv]

/-- The metadata loop reports the first failing item. -/
theorem metadataLoopBody_first_fail (now : Int) (pre : List JVal) (x : JVal)
    (rest : List JVal) (hpre : ∀ p ∈ pre, metadataItemOk now p = true)
    (hx : metadataItemOk now x = false) :
    ∀ i, metadataLoopBody now (pre ++ x :: rest) i = metadataItemReject now x (i + pre.length) := by
  induction pre with
  | nil => intro i; simpa using metadataLoopBody_fail now x rest i hx
  | cons p pre ih =>
    intro i
    rw [List.cons_append, metadataLoopBody_ok now p _ i (hpre p (by simp))]
    rw [ih (fun q hq => hpre q (by simp [hq])) (i + 1)]
    congr 1
    simp only [List.length_cons]
    omega

/-- An item passing verification makes the signature loop step on. -/
theorem signatureLoopBody_ok (C : CryptoModel) (p : JVal) (rest : List JVal) (i : Nat)
    (h : signatureItemOk C p = true) :
    signatureLoopBody C (p :: rest) i = signatureLoopBody C rest (i + 1) := by
  unfold signatureItemOk at h
  conv_lhs => rw [signatureLoopBody.eq_def]
  split at h
  · exact absurd h (by simp)
  · split at h
    · simp_all
    · exact absurd h (by simp)

/-- A failing item stops the signature loop with its rejection. -/
theorem signatureLoopBody_fail (C : CryptoModel) (p : JVal) (rest : List JVal) (i : Nat)
    (h : signatureItemOk C p = false) :
    signatureLoopBody C (p :: rest) i = signatureItemReject C p i := by
  unfold signatureItemOk at h
  conv_lhs => rw [signatureLoopBody.eq_def]
  unfold signatureItemReject
  split at h
  · simp_all
  · split at h
    · simp_all
    · simp_all

/-- The signature loop reports the first failing item. -/
theorem signatureLoopBody_first_fail (C : CryptoModel) (pre : List JVal) (x : JVal)
    (rest : List JVal) (hpre : ∀ p ∈ pre, signatureItemOk C p = true)
    (hx : signatureItemOk C x = false) :
    ∀ i, signatureLoopBody C (pre ++ x :: rest) i = signatureItemReject C x (i + pre.length) := by
  induction pre with
  | nil => intro i; simpa using signatureLoopBody_fail C x rest i hx
  | cons p pre ih =>
    intro i
    rw [List.cons_append, signatureLoopBody_ok C p _ i (hpre p (by simp))]
    rw [ih (fun q hq => hpre q (by simp [hq])) (i + 1)]
    congr 1
    simp only [List.length_cons]
    omega

/-- A batch item whose set_data is structurally valid but whose timestamp 0x0
is stale at now = 1000. -/
def staleItem : JVal :=
  jobj [("set_data", jobj [("data", .str "mnemonic"), ("timestamp", .str "0")])]

/-- A one-item batch containing `staleItem` under the key shares. -/
def staleBatchBody : JVal := jobj [("shares", jarr [staleItem])]

/-- Counterexample to C2: the failing item sits at position 0, but the
staleness rejection of validateMetadataLoopInput carries NO index annotation
at all (the source only sets errors.index in the structural 400 branch, not
in the 403 staleness branch). -/
theorem metadataLoop_stale_error_lacks_index :
    validateMetadataLoopInput 1000 "shares" staleBatchBody
      = .reject 403 [("timestamp", staleMsg)] none := by decide

/-- C2 as amended: every batch middleware visits items in index order and
stops at the first failing item, whose position the result depends on alone
(items after it are arbitrary); the error carries index = i in every failing
branch except the staleness 403 of validateMetadataLoopInput, which carries
no index (see the counterexample). -/
theorem batch_fail_fast_first_error :
    (∀ (items : List String) (key : String) (body : JVal) (pre : List JVal) (x : JVal)
        (rest : List JVal),
      getField body key = some (.arr (JArr.ofList (pre ++ x :: rest))) →
      (∀ p ∈ pre, (validateInput p items).2 = true) →
      (validateInput x items).2 = false →
      validationLoopMiddleware items key body
        = .reject 400 (validateInput x items).1 (some pre.length)) ∧
    (∀ (now : Int) (key : String) (body : JVal) (pre : List JVal) (x : JVal)
        (rest : List JVal),
      getField body key = some (.arr (JArr.ofList (pre ++ x :: rest))) →
      (∀ p ∈ pre, metadataItemOk now p = true) →
      metadataItemOk now x = false →
      validateMetadataLoopInput now key body = metadataItemReject now x pre.length) ∧
    (∀ (C : CryptoModel) (key : String) (body : JVal) (pre : List JVal) (x : JVal)
        (rest : List JVal),
      getField body key = some (.arr (JArr.ofList (pre ++ x :: rest))) →
      (∀ p ∈ pre, signatureItemOk C p = true) →
      signatureItemOk C x = false →
      validateLoopSignature C key body = signatureItemReject C x pre.length) := by
  refine ⟨?_, ?_, ?_⟩
  · intro items key body pre x rest hb hpre hx
    unfold validationLoopMiddleware
    rw [hb]
    simp only [arrToList_ofList]
    simpa using validationLoopBody_first_fail items pre x rest hpre hx 0
  · intro now key body pre x rest hb hpre hx
    unfold validateMetadataLoopInput
    rw [hb]
    simp only [arrToList_ofList]
    simpa using metadataLoopBody_first_fail now pre x rest hpre hx 0
  · intro C key body pre x rest hb hpre hx
    unfold validateLoopSignature
    rw [hb]
    simp only [arrToList_ofList]
    simpa using signatureLoopBody_first_fail C pre x rest hpre hx 0

/-- Crypto model that fails key reconstruction exactly on the pub_key_X
value bad, used to make one specific batch item fail. -/
def selectCrypto : CryptoModel :=
  ⟨fun _ => "", fun x _ => !(x == some (.str "bad")), fun _ _ _ _ _ => true⟩

/-- A batch item that passes `selectCrypto` verification. -/
def goodSigItem : JVal :=
  jobj [("pub_key_X", .str "ok"), ("pub_key_Y", .str "yy"), ("signature", .str "QUJD"),
        ("set_data", jobj [("data", .str "mnemonic")])]

/-- A batch item whose key reconstruction throws under `selectCrypto`. -/
def badSigItem : JVal :=
  jobj [("pub_key_X", .str "bad"), ("pub_key_Y", .str "yy"), ("signature", .str "QUJD"),
        ("set_data", jobj [("data", .str "mnemonic")])]

/-- A batch item failing structural validation (timestamp missing). -/
def invalidItem : JVal := jobj [("data", .str "x")]

/-- A batch item with both required fields present at top level. -/
def flatItem : JVal := jobj [("data", .str "x"), ("timestamp", .str "3e8")]

/-- Witness for C2 as amended: in a validation batch the first failure at
position 1 is reported with index 1 and rest untouched; in a metadata batch a
stale item at position 1 yields the indexless 403; in a signature batch a
throwing item at position 1 yields 500 with index 1. -/
theorem batch_fail_fast_first_error_inst :
    validationLoopMiddleware ["data", "timestamp"] "shares"
        (jobj [("shares", jarr [flatItem, invalidItem, flatItem])])
      = .reject 400 (validateInput invalidItem ["data", "timestamp"]).1 (some 1) ∧
    validateMetadataLoopInput 1000 "shares"
        (jobj [("shares", jarr [jobj [("set_data", freshSet)], staleItem])])
      = metadataItemReject 1000 staleItem 1 ∧
    validateLoopSignature selectCrypto "shares"
        (jobj [("shares", jarr [goodSigItem, badSigItem, goodSigItem])])
      = signatureItemReject selectCrypto badSigItem 1 := by
  refine ⟨?_, ?_, ?_⟩
  · exact batch_fail_fast_first_error.1 ["data", "timestamp"] "shares" _ [flatItem]
      invalidItem [flatItem] (by decide) (by decide) (by decide)
  · exact batch_fail_fast_first_error.2.1 1000 "shares" _ [jobj [("set_data", freshSet)]]
      staleItem [] (by decide) (by decide) (by decide)
  · exact batch_fail_fast_first_error.2.2 selectCrypto "shares" _ [goodSigItem]
      badSigItem [goodSigItem] (by decide) (by decide) (by decide)

/-! ### C4 -/

/-- A base64 string decoding to 63 zero bytes (84 alphabet characters). -/
def sig63 : String := "AAAAAAAAAAAAAAAAAAAAAAAAAAAAAAAAAAAAAAAAAAAAAAAAAAAAAAAAAAAAAAAAAAAAAAAAAAAAAAAAAAAA"

/-- A base64 string decoding to 64 zero bytes (86 alphabet characters and
padding). -/
def sig64 : String := "AAAAAAAAAAAAAAAAAAAAAAAAAAAAAAAAAAAAAAAAAAAAAAAAAAAAAAAAAAAAAAAAAAAAAAAAAAAAAAAAAAAAAA=="

/-- A body carrying the 63-byte signature. -/
def shortSigBody : JVal :=
  jobj [("pub_key_X", .str "aa"), ("pub_key_Y", .str "bb"), ("signature", .str sig63),
        ("set_data", jobj [("data", .str "mnemonic"), ("timestamp", .str "3e8")])]

/-- The same body with the 64-byte signature. -/
def fullSigBody : JVal :=
  jobj [("pub_key_X", .str "aa"), ("pub_key_Y", .str "bb"), ("signature", .str sig64),
        ("set_data", jobj [("data", .str "mnemonic"), ("timestamp", .str "3e8")])]

/-- Counterexample to C4: a signature that decodes to 63 bytes instead of 64
is NOT reported as a structural failure distinct from a verification
failure: validateSignature produces exactly the same 403 Invalid signature
response as it does for a well-formed 64-byte signature that fails
verification, so the two cases are indistinguishable to callers. -/
theorem short_signature_not_distinguished :
    (base64Decode sig63).length = 63 ∧
    (base64Decode sig64).length = 64 ∧
    validateSignature rejectCrypto shortSigBody
      = .reject 403 [("signature", "Invalid signature")] none ∧
    validateSignature rejectCrypto fullSigBody
      = .reject 403 [("signature", "Invalid signature")] none := by decide

/-- Any rejection of the signature loop is the 403 verification failure or
the 500 internal error, for every batch and index. -/
theorem signatureLoopBody_reject_shape (C : CryptoModel) :
    ∀ (l : List JVal) (i : Nat) (st : Nat) (e : List (String × String)) (idx : Option Nat),
      signatureLoopBody C l i = .reject st e idx →
      (st = 403 ∧ e = [("signature", "Invalid signature")]) ∨ (st = 500 ∧ e = getErrorMsg) := by
  intro l
  induction l with
  | nil => intro i st e idx h; simp [signatureLoopBody] at h
  | cons p rest ih =>
    intro i st e idx h
    by_cases hok : signatureItemOk C p = true
    · rw [signatureLoopBody_ok C p rest i hok] at h
      exact ih (i + 1) st e idx h
    · rw [Bool.not_eq_true] at hok
      rw [signatureLoopBody_fail C p rest i hok] at h
      unfold signatureItemReject at h
      split at h
      all_goals try split at h
      all_goals
        first
          | exact Or.inl ⟨(MwOut.reject.inj h).1.symm, (MwOut.reject.inj h).2.1.symm⟩
          | exact Or.inr ⟨(MwOut.reject.inj h).1.symm, (MwOut.reject.inj h).2.1.symm⟩

/-- C4 as amended: the verifier performs no signature-length check and has no
structural-failure path at all: every rejection that validateSignature or
validateLoopSignature can produce is either the 403 Invalid signature of a
failed verification or the 500 internal error of a thrown exception; a
malformed encoding is never reported distinctly (the counterexample shows a
63-byte signature producing the verification 403 verbatim). -/
theorem signature_reject_never_structural :
    (∀ (C : CryptoModel) (body : JVal) (st : Nat) (e : List (String × String))
        (idx : Option Nat),
      validateSignature C body = .reject st e idx →
      (st = 403 ∧ e = [("signature", "Invalid signature")]) ∨ (st = 500 ∧ e = getErrorMsg)) ∧
    (∀ (C : CryptoModel) (key : String) (body : JVal) (st : Nat)
        (e : List (String × String)) (idx : Option Nat),
      validateLoopSignature C key body = .reject st e idx →
      (st = 403 ∧ e = [("signature", "Invalid signature")]) ∨ (st = 500 ∧ e = getErrorMsg)) := by
  constructor
  · intro C body st e idx h
    unfold validateSignature at h
    dsimp only at h
    split at h
    all_goals try split at h
    all_goals try split at h
    all_goals
      first
        | exact MwOut.noConfusion h
        | exact Or.inl ⟨(MwOut.reject.inj h).1.symm, (MwOut.reject.inj h).2.1.symm⟩
        | exact Or.inr ⟨(MwOut.reject.inj h).1.symm, (MwOut.reject.inj h).2.1.symm⟩
  · intro C key body st e idx h
    unfold validateLoopSignature at h
    split at h
    · exact signatureLoopBody_reject_shape C _ 0 st e idx h
    · exact absurd h (by simp)

/-- Witness for C4 as amended: the rejection for the 63-byte signature is
classified by the theorem as the 403 verification shape. -/
theorem signature_reject_never_structural_inst :
    (403 = 403 ∧ [("signature", "Invalid signature")] = [("signature", "Invalid signature")]) ∨
      (403 = 500 ∧ [("signature", "Invalid signature")] = getErrorMsg) :=
  signature_reject_never_structural.1 rejectCrypto shortSigBody 403
    [("signature", "Invalid signature")] none (by decide)

/-! ### C6 -/

/-- The array view of a possibly-undefined value, used to state that a batch
field is not a sequence. -/
def asArr (o : Option JVal) : Option JArr :=
  match o with
  | some (.arr xs) => some xs
  | _ => none

/-- A body whose batch field shares holds a string instead of an array. -/
def nonArrayBody : JVal := jobj [("shares", .str "notanarray")]

/-- Counterexample to C6: with the Array.isArray guard commented out in the
source, validateMetadataLoopInput and validateLoopSignature do not return a
400 structural error on a non-sequence batch field: calling .entries() on the
string throws an uncaught TypeError (modelled by crash). -/
theorem metadataLoop_nonarray_crashes :
    validateMetadataLoopInput 1000 "shares" nonArrayBody = .crash ∧
    validateLoopSignature rejectCrypto "shares" nonArrayBody = .crash := by decide

/-- C6 as amended: on a non-sequence batch field, validationLoopMiddleware
returns the 400 structural error the claim describes, but
validateMetadataLoopInput and validateLoopSignature, whose Array.isArray
guard is commented out, let the TypeError escape uncaught instead. -/
theorem nonarray_batch_handling :
    (∀ (items : List String) (key : String) (body : JVal),
      asArr (getField body key) = none →
      validationLoopMiddleware items key body
        = .reject 400 [("message", key ++ " must be an array")] none) ∧
    (∀ (now : Int) (key : String) (body : JVal),
      asArr (getField body key) = none →
      validateMetadataLoopInput now key body = .crash) ∧
    (∀ (C : CryptoModel) (key : String) (body : JVal),
      asArr (getField body key) = none →
      validateLoopSignature C key body = .crash) := by
  refine ⟨?_, ?_, ?_⟩
  · intro items key body h
    unfold validationLoopMiddleware
    rcases hg : getField body key with _ | v
    · rfl
    · rcases v with _ | b | n | s | xs | fs
      · rfl
      · rfl
      · rfl
      · rfl
      · rw [hg] at h; simp [asArr] at h
      · rfl
  · intro now key body h
    unfold validateMetadataLoopInput
    rcases hg : getField body key with _ | v
    · rfl
    · rcases v with _ | b | n | s | xs | fs
      · rfl
      · rfl
      · rfl
      · rfl
      · rw [hg] at h; simp [asArr] at h
      · rfl
  · intro C key body h
    unfold validateLoopSignature
    rcases hg : getField body key with _ | v
    · rfl
    · rcases v with _ | b | n | s | xs | fs
      · rfl
      · rfl
      · rfl
      · rfl
      · rw [hg] at h; simp [asArr] at h
      · rfl

/-- Witness for C6 as amended: on the string-valued batch field the check of
validationLoopMiddleware fires with 400 while the other two crash. -/
theorem nonarray_batch_handling_inst :
    asArr (getField nonArrayBody "shares") = none ∧
    validationLoopMiddleware ["data"] "shares" nonArrayBody
      = .reject 400 [("message", "shares must be an array")] none ∧
    validateMetadataLoopInput 7 "shares" nonArrayBody = .crash ∧
    validateLoopSignature acceptCrypto "shares" nonArrayBody = .crash := by
  refine ⟨by decide, ?_, ?_, ?_⟩
  · have h := nonarray_batch_handling.1 ["data"] "shares" nonArrayBody (by decide)
    simpa using h
  · exact nonarray_batch_handling.2.1 7 "shares" nonArrayBody (by decide)
  · exact nonarray_batch_handling.2.2 acceptCrypto "shares" nonArrayBody (by decide)

/-! ### C9 -/

/-- Lock crypto model whose verification always fails. -/
def lockRejectCrypto : LockCryptoModel := ⟨fun _ => "", fun _ _ _ => false⟩

/-- Lock payload whose numeric timeStamp 0 is long stale at now = 1000. -/
def staleLockData : JVal := jobj [("timeStamp", .num 0)]

/-- A lock request carrying `staleLockData`. -/
def staleLockBody : JVal :=
  jobj [("key", .str "aa"), ("signature", .str "c2ln"), ("data", staleLockData)]

/-- Counterexample to C9: the timeStamp of the lock body is stale
(now - 0 > 60), yet validateLockData answers with the signature error, not
the staleness one: this verification path checks the signature BEFORE
checking freshness. -/
theorem lockData_signature_before_freshness :
    staleAt 1000 (jsToNumberOpt (getField staleLockData "timeStamp")) = true ∧
    validateLockData lockRejectCrypto 1000 staleLockBody
      = .reject 403 [("error", "Invalid Signature")] none := by decide

/-- C9 as amended: validateMetadataInput runs its structural check before the
replay check (a structurally invalid payload gets the 400 regardless of its
timestamp) and performs no signature work at all, but validateLockData runs
the signature verification FIRST: whenever verification fails it answers 403
Invalid Signature for every value of now, even when the timestamp is also
stale. -/
theorem stage_order_metadata_vs_lock :
    (∀ (now : Int) (body : JVal),
      (validateInput ((getField body "set_data").getD (.obj .nil)) ["data", "timestamp"]).2
          = false →
      validateMetadataInput now body
        = .reject 400
            (validateInput ((getField body "set_data").getD (.obj .nil))
              ["data", "timestamp"]).1 none) ∧
    (∀ (L : LockCryptoModel) (now : Int) (body data : JVal) (k : String),
      getField body "data" = some data →
      getField body "key" = some (.str k) →
      L.verify (L.keccak (stringify data)) (getField body "signature") k = false →
      validateLockData L now body = .reject 403 [("error", "Invalid Signature")] none) := by
  constructor
  · intro now body hv
    unfold validateMetadataInput
    simp [hv]
  · intro L now body data k hdata hkey hverify
    unfold validateLockData
    rw [hdata, hkey]
    simp [hverify]

/-- Witness for C9 as amended: a structurally empty set_data is rejected 400
by validateMetadataInput even with no timestamp at all, and the lock path
reports the failed signature on the stale body. -/
theorem stage_order_metadata_vs_lock_inst :
    validateMetadataInput 5 (jobj [])
      = .reject 400 (validateInput (.obj .nil) ["data", "timestamp"]).1 none ∧
    validateLockData lockRejectCrypto 999999 staleLockBody
      = .reject 403 [("error", "Invalid Signature")] none := by
  constructor
  · have h := stage_order_metadata_vs_lock.1 5 (jobj []) (by decide)
    simpa using h
  · exact stage_order_metadata_vs_lock.2 lockRejectCrypto 999999 staleLockBody staleLockData
      "aa" (by decide) (by decide) (by decide)

/-! ### C8 -/

/-- The key order is total. -/
theorem strLeB_total : ∀ (a b : List Char), strLeB a b = true ∨ strLeB b a = true := by
  intro a
  induction a with
  | nil => intro b; left; rfl
  | cons c cs ih =>
    intro b
    cases b with
    | nil => right; rfl
    | cons d ds =>
      by_cases h1 : c.toNat < d.toNat
      · left; simp [strLeB, h1]
      · by_cases h2 : d.toNat < c.toNat
        · right; simp [strLeB, h2]
        · rcases ih ds with h | h
          · left; simp [strLeB, h1, h2, h]
          · right; simp [strLeB, h1, h2, h]

/-- The key order is transitive. -/
theorem strLeB_trans :
    ∀ (a b c : List Char), strLeB a b = true → strLeB b c = true → strLeB a c = true := by
  intro a
  induction a with
  | nil => intro b c _ _; rfl
  | cons x xs ih =>
    intro b c hab hbc
    cases b with
    | nil => exact absurd hab (by simp [strLeB])
    | cons y ys =>
      cases c with
      | nil => exact absurd hbc (by simp [strLeB])
      | cons z zs =>
        rw [strLeB] at hab hbc ⊢
        by_cases hyx : y.toNat < x.toNat
        · have hxy : ¬ x.toNat < y.toNat := by omega
          rw [if_neg hxy, if_pos hyx] at hab
          exact absurd hab (by simp)
        · by_cases hzy : z.toNat < y.toNat
          · have hyz : ¬ y.toNat < z.toNat := by omega
            rw [if_neg hyz, if_pos hzy] at hbc
            exact absurd hbc (by simp)
          · by_cases hxy : x.toNat < y.toNat
            · have hxz : x.toNat < z.toNat := by omega
              rw [if_pos hxz]
            · by_cases hyz : y.toNat < z.toNat
              · have hxz : x.toNat < z.toNat := by omega
                rw [if_pos hxz]
              · have hxz : ¬ x.toNat < z.toNat := by omega
                have hzx : ¬ z.toNat < x.toNat := by omega
                rw [if_neg hxy, if_neg hyx] at hab
                rw [if_neg hyz, if_neg hzy] at hbc
                rw [if_neg hxz, if_neg hzx]
                exact ih ys zs hab hbc

/-- The key order is antisymmetric. -/
theorem strLeB_antisymm :
    ∀ (a b : List Char), strLeB a b = true → strLeB b a = true → a = b := by
  intro a
  induction a with
  | nil =>
    intro b _ hba
    cases b with
    | nil => rfl
    | cons d ds => exact absurd hba (by simp [strLeB])
  | cons c cs ih =>
    intro b hab hba
    cases b with
    | nil => exact absurd hab (by simp [strLeB])
    | cons d ds =>
      rw [strLeB] at hab hba
      by_cases h1 : c.toNat < d.toNat
      · have h2 : ¬ d.toNat < c.toNat := by omega
        rw [if_neg h2, if_pos h1] at hba
        exact absurd hba (by simp)
      · by_cases h2 : d.toNat < c.toNat
        · rw [if_neg h1, if_pos h2] at hab
          exact absurd hab (by simp)
        · rw [if_neg h1, if_neg h2] at hab
          rw [if_neg h2, if_neg h1] at hba
          have hn : c.toNat = d.toNat := by omega
          have hcd : c = d := Char.ext (UInt32.ext hn)
          rw [hcd, ih ds hab hba]

/-- Antisymmetry lifted to strings. -/
theorem strLeB_antisymm_str (s t : String)
    (h1 : strLeB s.data t.data = true) (h2 : strLeB t.data s.data = true) : s = t := by
  cases s with
  | mk d1 =>
    cases t with
    | mk d2 => exact congrArg String.mk (strLeB_antisymm d1 d2 h1 h2)

instance : IsTotal (String × JVal) keyLE :=
  ⟨fun a b => strLeB_total a.1.data b.1.data⟩

instance : IsTrans (String × JVal) keyLE :=
  ⟨fun _ _ _ hab hbc => strLeB_trans _ _ _ hab hbc⟩

/-- Two sorted field lists that are permutations of each other and have no
duplicate keys are equal (sorting is by key only, so the absence of duplicate
keys replaces antisymmetry). -/
theorem sorted_perm_nodup_eq :
    ∀ (l1 l2 : List (String × JVal)), l1.Perm l2 → l1.Sorted keyLE → l2.Sorted keyLE →
      (l1.map Prod.fst).Nodup → l1 = l2 := by
  intro l1
  induction l1 with
  | nil =>
    intro l2 hp _ _ _
    exact hp.nil_eq
  | cons a t1 ih =>
    intro l2 hp hs1 hs2 hnd
    cases l2 with
    | nil => exact absurd hp.eq_nil (by simp)
    | cons b t2 =>
      by_cases hab : a = b
      · subst hab
        have hp' := hp.cons_inv
        have hs1' := (List.sorted_cons.mp hs1).2
        have hs2' := (List.sorted_cons.mp hs2).2
        have hndc : a.1 ∉ t1.map Prod.fst ∧ (t1.map Prod.fst).Nodup := by
          rw [List.map_cons, List.nodup_cons] at hnd
          exact hnd
        rw [ih t2 hp' hs1' hs2' hndc.2]
      · have ha2 : a ∈ b :: t2 := hp.subset (List.mem_cons_self a t1)
        have hb1 : b ∈ a :: t1 := hp.symm.subset (List.mem_cons_self b t2)
        have ha2t : a ∈ t2 := by
          rcases List.mem_cons.mp ha2 with h | h
          · exact absurd h hab
          · exact h
        have hb1t : b ∈ t1 := by
          rcases List.mem_cons.mp hb1 with h | h
          · exact absurd h.symm hab
          · exact h
        have hle1 : keyLE a b := (List.sorted_cons.mp hs1).1 b hb1t
        have hle2 : keyLE b a := (List.sorted_cons.mp hs2).1 a ha2t
        have hkey : a.1 = b.1 := strLeB_antisymm_str a.1 b.1 hle1 hle2
        have hmem : a.1 ∈ t1.map Prod.fst := by
          rw [hkey]
          exact List.mem_map_of_mem Prod.fst hb1t
        have hndc : a.1 ∉ t1.map Prod.fst ∧ (t1.map Prod.fst).Nodup := by
          rw [List.map_cons, List.nodup_cons] at hnd
          exact hnd
        exact absurd hmem hndc.1

/-- Round trip of the object view. -/
theorem objOfList_toList : ∀ (o : JObj), JObj.ofList o.toList = o
  | .nil => rfl
  | .cons k v r => by rw [JObj.toList, JObj.ofList, objOfList_toList r]

/-- Round trip of the object view, the other way. -/
theorem objToList_ofList (l : List (String × JVal)) : (JObj.ofList l).toList = l := by
  induction l with
  | nil => rfl
  | cons p rest ih =>
    cases p
    simp [JObj.ofList, JObj.toList, ih]

/-- Value normalization distributes over the object view. -/
theorem normalizeO_ofList (l : List (String × JVal)) :
    normalizeO (JObj.ofList l) = JObj.ofList (l.map fun p => (p.1, normalizeJ p.2)) := by
  induction l with
  | nil => rfl
  | cons p rest ih =>
    cases p
    simp [JObj.ofList, normalizeO, ih]

/-- Ordered insertion agrees with Mathlib ordered insertion through the
list view. -/
theorem insertObj_toList (k : String) (v : JVal) :
    ∀ (o : JObj), (insertObj k v o).toList = List.orderedInsert keyLE (k, v) o.toList
  | .nil => rfl
  | .cons k2 v2 r => by
    by_cases h : strLeB k.data k2.data = true
    · simp [insertObj, JObj.toList, List.orderedInsert, keyLE, h]
    · simp [insertObj, JObj.toList, List.orderedInsert, keyLE, h, insertObj_toList k v r]

/-- The field sort agrees with Mathlib insertion sort through the list
view. -/
theorem sortObj_toList : ∀ (o : JObj), (sortObj o).toList = List.insertionSort keyLE o.toList
  | .nil => rfl
  | .cons k v r => by
    rw [sortObj, insertObj_toList, sortObj_toList r, JObj.toList, List.insertionSort]

/-- C8: canonical serialization is insensitive to key insertion order: for
any two object field lists with identical key/value pairs in different
insertion order (and, as for any JavaScript object, no duplicate keys), the
canonical byte sequences fed to the hash are equal, so both payloads verify
against the same signature. -/
theorem stringify_insertion_order_invariant (l1 l2 : List (String × JVal))
    (hperm : l1.Perm l2) (hnd : (l1.map Prod.fst).Nodup) :
    stringify (jobj l1) = stringify (jobj l2) := by
  have h1 : (sortObj (normalizeO (JObj.ofList l1))).toList
      = List.insertionSort keyLE (l1.map fun p => (p.1, normalizeJ p.2)) := by
    rw [sortObj_toList, normalizeO_ofList, objToList_ofList]
  have h2 : (sortObj (normalizeO (JObj.ofList l2))).toList
      = List.insertionSort keyLE (l2.map fun p => (p.1, normalizeJ p.2)) := by
    rw [sortObj_toList, normalizeO_ofList, objToList_ofList]
  have hmp : (l1.map fun p => (p.1, normalizeJ p.2)).Perm
      (l2.map fun p => (p.1, normalizeJ p.2)) := hperm.map _
  have hfst : (l1.map fun p => (p.1, normalizeJ p.2)).map Prod.fst = l1.map Prod.fst := by
    rw [List.map_map]
    rfl
  have hndm : ((List.insertionSort keyLE (l1.map fun p => (p.1, normalizeJ p.2))).map
      Prod.fst).Nodup := by
    have hpm := (List.perm_insertionSort keyLE (l1.map fun p => (p.1, normalizeJ p.2))).map
      Prod.fst
    refine hpm.symm.nodup ?_
    rw [hfst]
    exact hnd
  have heq : List.insertionSort keyLE (l1.map fun p => (p.1, normalizeJ p.2))
      = List.insertionSort keyLE (l2.map fun p => (p.1, normalizeJ p.2)) := by
    refine sorted_perm_nodup_eq _ _ ?_ ?_ ?_ hndm
    · exact (List.perm_insertionSort keyLE _).trans
        (hmp.trans (List.perm_insertionSort keyLE _).symm)
    · exact List.sorted_insertionSort keyLE _
    · exact List.sorted_insertionSort keyLE _
  have hsort : sortObj (normalizeO (JObj.ofList l1)) = sortObj (normalizeO (JObj.ofList l2)) := by
    have hh := congrArg JObj.ofList (h1.trans (heq.trans h2.symm))
    rwa [objOfList_toList, objOfList_toList] at hh
  unfold stringify jobj
  simp only [normalizeJ]
  rw [hsort]

/-- Witness for C8: two concrete two-field objects in opposite insertion
order canonicalize identically. -/
theorem stringify_insertion_order_invariant_inst :
    [("b", JVal.num 1), ("a", JVal.str "x")].Perm [("a", JVal.str "x"), ("b", JVal.num 1)] ∧
    ([("b", JVal.num 1), ("a", JVal.str "x")].map Prod.fst).Nodup ∧
    stringify (jobj [("b", JVal.num 1), ("a", JVal.str "x")])
      = stringify (jobj [("a", JVal.str "x"), ("b", JVal.num 1)]) :=
  ⟨by decide, by decide,
   stringify_insertion_order_invariant _ _ (by decide) (by decide)⟩
